import Mathlib

/-!
Verification development for the PlaywrightMCP-UI repository.

The definitions below are a shallow embedding of the TypeScript sources:

* `src/playwright-wrapper.ts` — the `PlaywrightRunner` class: `maskValue`,
  `executeStep`, `run`, `replayStep`, and the CDP screencast frame handler.
  The asynchronous browser effects performed by `performAction`,
  `page.goto` and `captureBase64Screenshot` are abstracted by an
  `ExecOutcome` record per step index (whether the action throws and with
  which message, the measured wall-clock durations, whether each screenshot
  capture succeeds and with which payload, and the page url), so every
  function below is the pure control-flow skeleton of the source with the
  browser replaced by that oracle.
* `src/server.ts` — the session-level tool handlers (`close-browser`,
  `take-screenshot`, `save-video`, `start-screencast`,
  `get-screencast-frame`) and the summary computation of `playwright-run`.
* the timeline UI — the expanded-step set updates: `selectStep` of
  src/src/TimelineApp.tsx, `selectStep` of the src/unnamed/part_002
  variant (toggle + accordion, modelled as `selectStepToggle`),
  `toggleStep` of the src/unnamed/part_003 variant, and the failed-step
  auto-expands in the two `ontoolresult` handlers. The expanded set (a JS
  `Set<number>`) is modelled as its membership function `Nat → Bool`.
-/

namespace PW

/-- Status of a step, `"passed" | "failed" | "skipped"` in the source. -/
inductive Status where
  | passed
  | failed
  | skipped
deriving DecidableEq, Repr

/-- `StepResult` from src/playwright-wrapper.ts (fields absent in the JS
object are `none`). `duration` is the `duration` field in milliseconds. -/
structure StepResult where
  index : Nat
  type : String
  selector : Option String := none
  value : Option String := none
  status : Status
  duration : Nat
  screenshot : Option String := none
  error : Option String := none
  url : Option String := none
deriving DecidableEq, Repr

/-- `PlaywrightAction` from src/playwright-wrapper.ts. The `type` union of
string literals is kept as a `String`, as it is at the JS runtime. -/
structure PlaywrightAction where
  type : String
  selector : Option String := none
  value : Option String := none
  timeout : Option Nat := none
deriving DecidableEq, Repr

/-- The two `RunOptions` flags the control flow of `run` consults
(`screenshotFormat`/`screenshotQuality` only shape the image payload,
which the oracle already abstracts). Defaults as destructured in `run`. -/
structure RunOptions where
  captureScreenshots : Bool := true
  screenshotOnFailure : Bool := true
deriving DecidableEq, Repr

/-- Oracle for one `executeStep` invocation: the outcome of the wrapped
browser calls. `actionError = some e` means the action thunk throws with
message `e`; `durationPassed`/`durationFailed` are the values of
`Date.now() - start` measured on the success / catch path;
`shotSuccess` is the result of the screenshot capture attempted inside the
`try` block (`.error m` = it throws with message `m`); `shotFailure` is
the result of the capture attempted inside the `catch` block (`none` = it
throws, which the source swallows); `pageUrl` is `this.page.url()`. -/
structure ExecOutcome where
  actionError : Option String
  durationPassed : Nat
  durationFailed : Nat
  shotSuccess : Except String String
  shotFailure : Option String
  pageUrl : String

/-- Executable substring test used to embed JS `String.prototype.includes`:
is `pat` a prefix of `l`? -/
def listIsPrefixOf : List Char → List Char → Bool
  | [], _ => true
  | _ :: _, [] => false
  | a :: as, b :: bs => a == b && listIsPrefixOf as bs

/-- Is `pat` a contiguous sublist of `l`? -/
def listContainsSub (pat : List Char) : List Char → Bool
  | [] => pat.isEmpty
  | c :: rest => listIsPrefixOf pat (c :: rest) || listContainsSub pat rest

/-- JS `s.includes(pat)`. -/
def strContains (s pat : String) : Bool :=
  listContainsSub pat.data s.data

/-- JS `s.toLowerCase()`, as a character-wise map (kernel-reducible). -/
def strToLower (s : String) : String :=
  String.mk (s.data.map Char.toLower)

/-- The password-field heuristic of `maskValue` (the `selector && (...)`
disjunction, in source order); a missing selector is falsy. -/
def isPasswordSelector : Option String → Bool
  | none => false
  | some sel =>
      strContains sel "[type=\"password\"]" ||
      strContains sel "[type=password]" ||
      strContains (strToLower sel) "password" ||
      strContains sel "#password" ||
      strContains sel ".password"

/-- The bullet character repeated by `maskValue`. -/
def bullet : Char := '•'

/-- `PlaywrightRunner.maskValue`. JS `if (!value) return value` returns
`undefined` and the empty string unchanged (both falsy). -/
def maskValue (value : Option String) (selector : Option String) : Option String :=
  match value with
  | none => none
  | some v =>
      if v = "" then some v
      else if isPasswordSelector selector then
        some (String.mk (List.replicate (min v.length 12) bullet))
      else some v

/-- The metadata record passed to `executeStep`
(`Omit<StepResult, "status" | "duration" | "screenshot" | "error">`,
without `url`, which `executeStep` fills itself). -/
structure StepMeta where
  index : Nat
  type : String
  selector : Option String := none
  value : Option String := none

/-- The `catch` branch of `executeStep`: status `failed`, the thrown
message as `error`, a best-effort screenshot whose own error is swallowed
(`shotFailure = none` leaves `screenshot` unset), and `this.page?.url()`. -/
def failedResult (m : StepMeta) (errMsg : String) (hasPage : Bool) (o : ExecOutcome) : StepResult :=
  { index := m.index, type := m.type, selector := m.selector, value := m.value,
    status := Status.failed, duration := o.durationFailed,
    error := some errMsg,
    screenshot := if hasPage then o.shotFailure else none,
    url := if hasPage then some o.pageUrl else none }

/-- `PlaywrightRunner.executeStep`. On success the screenshot is captured
inside the `try` block only when `captureScreenshot && this.page`; if that
capture throws, control falls into the `catch` branch with the capture's
message as the step error. The `catch` branch attempts a screenshot
whenever a page exists, regardless of `captureScreenshot`. -/
def executeStep (m : StepMeta) (captureScreenshot : Bool) (hasPage : Bool) (o : ExecOutcome) : StepResult :=
  match o.actionError with
  | some e => failedResult m e hasPage o
  | none =>
      if captureScreenshot && hasPage then
        match o.shotSuccess with
        | Except.ok data =>
            { index := m.index, type := m.type, selector := m.selector, value := m.value,
              status := Status.passed, duration := o.durationPassed,
              screenshot := some data,
              url := if hasPage then some o.pageUrl else none }
        | Except.error msg => failedResult m msg hasPage o
      else
        { index := m.index, type := m.type, selector := m.selector, value := m.value,
          status := Status.passed, duration := o.durationPassed,
          screenshot := none,
          url := if hasPage then some o.pageUrl else none }

/-- `s.status === "failed"` as a boolean. -/
def isFailed (s : StepResult) : Bool :=
  match s.status with
  | Status.failed => true
  | _ => false

/-- `s.status === "passed"` as a boolean. -/
def isPassed (s : StepResult) : Bool :=
  match s.status with
  | Status.passed => true
  | _ => false

/-- The skipped `StepResult` pushed by `run` when a prior step failed and
the action is not a screenshot (duration 0, no screenshot/error/url). -/
def skippedResult (idx : Nat) (a : PlaywrightAction) : StepResult :=
  { index := idx, type := a.type, selector := a.selector,
    value := if a.type = "fill" then maskValue a.value a.selector else a.value,
    status := Status.skipped, duration := 0 }

/-- The metadata `run` passes to `executeStep` for an explicit action. -/
def actionMeta (idx : Nat) (a : PlaywrightAction) : StepMeta :=
  { index := idx, type := a.type, selector := a.selector,
    value := if a.type = "fill" then maskValue a.value a.selector else a.value }

/-- The capture flag `run` passes for an explicit action:
`captureScreenshots || (screenshotOnFailure && action.type !== "screenshot")`. -/
def actionCaptureFlag (opts : RunOptions) (a : PlaywrightAction) : Bool :=
  opts.captureScreenshots || (opts.screenshotOnFailure && !(a.type == "screenshot"))

/-- The `StepResult` produced when `run` actually executes an action at
step index `idx` (the page is live throughout `run`). -/
def executedResult (opts : RunOptions) (env : Nat → ExecOutcome) (idx : Nat) (a : PlaywrightAction) : StepResult :=
  executeStep (actionMeta idx a) (actionCaptureFlag opts a) true (env idx)

/-- One iteration of the loop body of `run`: the `StepResult` pushed for
action `a` at step index `idx` given the accumulated `steps` so far. -/
def stepChoice (opts : RunOptions) (env : Nat → ExecOutcome) (idx : Nat)
    (steps : List StepResult) (a : PlaywrightAction) : StepResult :=
  if steps.any isFailed = true ∧ a.type ≠ "screenshot" then skippedResult idx a
  else executedResult opts env idx a

/-- The `for` loop of `PlaywrightRunner.run`: `steps` is the accumulator
array, `idx` the step index of the next action (`i + 2` in the source).
An action is skipped exactly when `steps.some(s => s.status === "failed")`
holds and its type is not `"screenshot"`. -/
def runSteps (opts : RunOptions) (env : Nat → ExecOutcome) :
    List PlaywrightAction → Nat → List StepResult → List StepResult
  | [], _, steps => steps
  | a :: rest, idx, steps =>
      if steps.any isFailed = true ∧ a.type ≠ "screenshot" then
        runSteps opts env rest (idx + 1) (steps ++ [skippedResult idx a])
      else
        runSteps opts env rest (idx + 1) (steps ++ [executedResult opts env idx a])

/-- Metadata of the implicit initial navigation step of `run`. -/
def navMeta (url : String) : StepMeta :=
  { index := 1, type := "navigate", value := some url }

/-- `PlaywrightRunner.run`: the implicit navigation step (capture flag
`captureScreenshots`) followed by the action loop starting at index 2. -/
def run (url : String) (actions : List PlaywrightAction) (opts : RunOptions)
    (env : Nat → ExecOutcome) : List StepResult :=
  runSteps opts env actions 2 [executeStep (navMeta url) opts.captureScreenshots true (env 1)]

/-- The metadata `replayStep` rebuilds from a previous `StepResult`. -/
def replayMeta (step : StepResult) : StepMeta :=
  { index := step.index, type := step.type, selector := step.selector, value := step.value }

/-- `PlaywrightRunner.replayStep`: throws "No active page" when no page
exists, otherwise re-executes the action with capture flag `true`. -/
def replayStep (hasPage : Bool) (step : StepResult) (o : ExecOutcome) : Except String StepResult :=
  if hasPage then Except.ok (executeStep (replayMeta step) true hasPage o)
  else Except.error "No active page"

/-- The `ExecutionSummary` computed by the `playwright-run` handler in
src/server.ts over `currentSteps`. -/
structure ExecutionSummary where
  total : Nat
  passed : Nat
  failed : Nat
  totalDuration : Nat
deriving DecidableEq, Repr

/-- `{ total: steps.length, passed: filter passed |>.length,
failed: filter failed |>.length, totalDuration: reduce (+duration) 0 }`. -/
def computeSummary (steps : List StepResult) : ExecutionSummary :=
  { total := steps.length,
    passed := (steps.filter isPassed).length,
    failed := (steps.filter isFailed).length,
    totalDuration := steps.foldl (fun acc s => acc + s.duration) 0 }

/-!  CDP screencast lifecycle (`startScreencast` / frame handler /
`stopScreencast` in src/playwright-wrapper.ts).  `screencastActive` is the
flag set to `true` by `startScreencast` and to `false` by
`stopScreencast`; a frame event reads it at delivery time. -/

/-- Events of the screencast lifecycle, in arrival order. -/
inductive ScreencastEvent where
  | start
  | frame
  | stop
deriving DecidableEq, Repr

/-- Effect of one event on the `screencastActive` flag (`startScreencast`
sets it, `stopScreencast` clears it, a frame event leaves it unchanged). -/
def screencastFlagStep (active : Bool) : ScreencastEvent → Bool
  | ScreencastEvent.start => true
  | ScreencastEvent.stop => false
  | ScreencastEvent.frame => active

/-- Value of `screencastActive` after processing a sequence of events
(initially `false`). -/
def activeAfter (events : List ScreencastEvent) : Bool :=
  events.foldl screencastFlagStep false

/-- Result of the `Page.screencastFrame` handler for one frame. -/
structure FrameHandlerResult where
  delivered : Bool
  ackSent : Bool
deriving DecidableEq, Repr

/-- The frame handler body: `if (!this.screencastActive) return;` then
`onFrame(frame)`, then the acknowledgment guarded by
`if (this.cdpSession && this.screencastActive)`. Because the handler is
asynchronous, the flag/session may change between delivery and the ack,
so the two observations are separate parameters. -/
def frameHandler (activeAtArrival : Bool) (sessionAtAck : Bool) (activeAtAck : Bool) :
    FrameHandlerResult :=
  if activeAtArrival = false then { delivered := false, ackSent := false }
  else { delivered := true, ackSent := sessionAtAck && activeAtAck }

/-- Whether the frame event at position `p` of a lifecycle trace is
delivered to `onFrame`: the handler runs with the flag state produced by
the preceding events. -/
def frameDelivered (t : List ScreencastEvent) (p : Nat) : Bool :=
  (frameHandler (activeAfter (t.take p)) true true).delivered

/-!  Server session state and tool handlers (src/server.ts).  The
module-level mutable bindings `runner`, `currentSteps`,
`isRecordingVideo`, `isHeadless` and `latestFrame` form the state; the
screencast-active flag lives inside the runner. -/

/-- A CDP screencast frame as stored in `latestFrame` (the metadata
fields the `get-screencast-frame` handler reads). -/
structure ScreencastFrame where
  data : String
  deviceWidth : Nat
  deviceHeight : Nat
  timestamp : Option Nat
deriving DecidableEq, Repr

/-- The module-level session state of src/server.ts. `hasRunner` is
`runner !== null`. -/
structure ServerState where
  hasRunner : Bool
  currentSteps : List StepResult
  isRecordingVideo : Bool
  isHeadless : Bool
  screencastActive : Bool
  latestFrame : Option ScreencastFrame
deriving DecidableEq, Repr

/-- A tool call result: the text content and the `isError` flag (absent
`isError` in the source is falsy, i.e. `false` here). -/
structure ToolResult where
  text : String
  isError : Bool := false
deriving DecidableEq, Repr

/-- Structured content of `close-browser`. -/
structure CloseResult where
  closed : Bool
  videoPath : Option String
deriving DecidableEq, Repr

/-- The `close-browser` handler: when a runner exists it best-effort
saves the video (when recording), closes the runner (stopping any
screencast) and resets `runner`, `currentSteps`, `isRecordingVideo` and
`isHeadless`; `latestFrame` is not cleared. `saveOk` abstracts whether
`runner.saveVideo` succeeds; `defaultPath` the generated recording path. -/
def closeBrowser (st : ServerState) (saveVideoAs : Option String) (saveOk : Bool)
    (defaultPath : String) : CloseResult × ServerState :=
  if st.hasRunner then
    let videoPath : Option String :=
      if st.isRecordingVideo then
        (if saveOk then some (saveVideoAs.getD defaultPath) else none)
      else none
    ({ closed := true, videoPath := videoPath },
     { hasRunner := false, currentSteps := [], isRecordingVideo := false,
       isHeadless := true, screencastActive := false, latestFrame := st.latestFrame })
  else
    ({ closed := true, videoPath := none }, st)

/-- The `take-screenshot` handler: without a runner it returns the
failed result "No active session"; otherwise it captures (`shot` is the
oracle for `runner.takeScreenshot()`). -/
def takeScreenshotTool (st : ServerState) (_shot : String) : ToolResult :=
  if st.hasRunner = false then { text := "No active session", isError := true }
  else { text := "Screenshot captured", isError := false }

/-- The `save-video` handler: without a runner it returns the failed
result "No active browser session"; otherwise `runner.saveVideo(path)`
either succeeds or its thrown message is reported as a failure. -/
def saveVideoTool (st : ServerState) (saveOk : Bool) (path errMsg : String) : ToolResult :=
  if st.hasRunner = false then { text := "No active browser session", isError := true }
  else if saveOk then { text := "Video saved to: " ++ path, isError := false }
  else { text := "Failed to save video: " ++ errMsg, isError := true }

/-- The `start-screencast` handler: runner-missing, headless-mode and
already-active checks in source order, then the screencast starts. -/
def startScreencastTool (st : ServerState) : ToolResult × ServerState :=
  if st.hasRunner = false then
    ({ text := "No active browser session", isError := true }, st)
  else if st.isHeadless then
    ({ text := "Screencast requires headless: false. Re-run with headless disabled.",
       isError := true }, st)
  else if st.screencastActive then
    ({ text := "Screencast already active", isError := false }, st)
  else
    ({ text := "Screencast started", isError := false },
     { st with screencastActive := true })

/-- The frame object the `get-screencast-frame` handler builds:
`timestamp: frame.metadata.timestamp || Date.now()` (so an absent or zero
timestamp falls back to `now`). -/
structure FrameOut where
  data : String
  timestamp : Nat
  width : Nat
  height : Nat
deriving DecidableEq, Repr

/-- Mapping from a stored frame to the handler's output frame. -/
def frameOut (f : ScreencastFrame) (now : Nat) : FrameOut :=
  { data := f.data,
    timestamp :=
      match f.timestamp with
      | some t => if t = 0 then now else t
      | none => now,
    width := f.deviceWidth,
    height := f.deviceHeight }

/-- Structured content of `get-screencast-frame`. -/
structure GetFrameResult where
  hasFrame : Bool
  frame : Option FrameOut
deriving DecidableEq, Repr

/-- The `get-screencast-frame` handler: returns `hasFrame: false` when no
frame is stored, otherwise returns the stored frame and clears it
(`latestFrame = null` after reading). -/
def getScreencastFrameTool (st : ServerState) (now : Nat) : GetFrameResult × ServerState :=
  match st.latestFrame with
  | none => ({ hasFrame := false, frame := none }, st)
  | some f =>
      ({ hasFrame := true, frame := some (frameOut f now) },
       { st with latestFrame := none })

/-!  Timeline UI expanded-step state (src/src/TimelineApp.tsx and the
unnamed timeline variant src/unnamed/part_003).  A JS `Set<number>` of
expanded step indices is modelled by its membership function. -/

/-- `selectStep` in src/src/TimelineApp.tsx:
`setExpandedSteps(new Set([index]))` — the expanded set becomes exactly
the selected index, independent of the previous set (the scroll-sync and
scroll-into-view side effects do not touch the expanded set). -/
def selectStep (index : Nat) (_expanded : Nat → Bool) : Nat → Bool :=
  fun n => n == index

/-- `toggleStep` in src/unnamed/part_003: copy the set, then delete the
index if present else add it; other members are untouched. -/
def toggleStep (index : Nat) (expanded : Nat → Bool) : Nat → Bool :=
  fun n => if n == index then !(expanded index) else expanded n

/-- The failed-step auto-expand in `ontoolresult` of src/src/TimelineApp.tsx:
`new Set(steps.filter(s => s.status === "failed").map(s => s.index))`. -/
def autoExpandFailedSteps (steps : List StepResult) : Nat → Bool :=
  fun n => steps.any (fun s => isFailed s && s.index == n)

/-- `selectStep` in src/unnamed/part_002 (the timeline variant with live
preview): `setExpandedSteps(prev => prev.has(index) ? new Set() :
new Set([index]))` — selecting an already-expanded step collapses it (the
set becomes empty), otherwise the set becomes exactly the selected index
(accordion). -/
def selectStepToggle (index : Nat) (expanded : Nat → Bool) : Nat → Bool :=
  if expanded index then (fun _ => false) else (fun n => n == index)

/-- The failed-step auto-expand in `ontoolresult` of src/unnamed/part_002,
which keys the set by array position (`arrayIdx`) rather than `step.index`:
membership of position `n` is whether the step at `n` has failed. -/
def autoExpandFailedIdx (steps : List StepResult) : Nat → Bool :=
  fun n =>
    match steps[n]? with
    | some s => isFailed s
    | none => false

/-!  Concrete fixtures used by witnesses and counterexamples. -/

/-- An outcome where the action succeeds and so does every capture. -/
def okOutcome : ExecOutcome :=
  { actionError := none, durationPassed := 10, durationFailed := 12,
    shotSuccess := Except.ok "SHOT", shotFailure := some "FSHOT",
    pageUrl := "https://example.com/" }

/-- An outcome where the action throws with message `e`. -/
def failOutcome (e : String) : ExecOutcome :=
  { okOutcome with actionError := some e }

/-- Environment where every step succeeds. -/
def envOk : Nat → ExecOutcome := fun _ => okOutcome

/-- Environment where the step at index `n` throws with message `e`. -/
def envFailAt (n : Nat) (e : String) : Nat → ExecOutcome :=
  fun i => if i = n then failOutcome e else okOutcome

/-- Options with both screenshot flags disabled. -/
def noShotOpts : RunOptions :=
  { captureScreenshots := false, screenshotOnFailure := false }

/-- A click action on a selector that will not be found. -/
def cexClick : PlaywrightAction := { type := "click", selector := some "#missing" }

/-- A fill action on a non-password selector. -/
def cexFill : PlaywrightAction := { type := "fill", selector := some "#x", value := some "y" }

/-- A fill action on a password selector. -/
def pwFill : PlaywrightAction :=
  { type := "fill", selector := some "#password", value := some "secret" }

/-- A fill action on a password selector whose value is a single bullet. -/
def pwBulletFill : PlaywrightAction :=
  { type := "fill", selector := some "#password", value := some "•" }

/-- A timed wait action. -/
def cexWait : PlaywrightAction := { type := "wait", value := some "250" }

/-- Concrete step metadata. -/
def cexMeta : StepMeta := { index := 2, type := "click", selector := some "#btn" }

/-!  Structural lemmas about the step loop. -/

theorem isFailed_eq_true_iff (s : StepResult) : isFailed s = true ↔ s.status = Status.failed := by
  unfold isFailed
  cases h : s.status <;> simp

theorem executeStep_meta (m : StepMeta) (f hp : Bool) (o : ExecOutcome) :
    (executeStep m f hp o).index = m.index ∧ (executeStep m f hp o).type = m.type ∧
    (executeStep m f hp o).selector = m.selector ∧ (executeStep m f hp o).value = m.value := by
  cases ho : o.actionError <;> cases hs : o.shotSuccess <;> cases f <;> cases hp <;>
    simp [executeStep, failedResult, ho, hs]

theorem executeStep_status (m : StepMeta) (f hp : Bool) (o : ExecOutcome) :
    (executeStep m f hp o).status = Status.passed ∨
    (executeStep m f hp o).status = Status.failed := by
  cases ho : o.actionError <;> cases hs : o.shotSuccess <;> cases f <;> cases hp <;>
    simp [executeStep, failedResult, ho, hs]

theorem runSteps_cons (opts : RunOptions) (env : Nat → ExecOutcome)
    (a : PlaywrightAction) (rest : List PlaywrightAction) (idx : Nat)
    (steps : List StepResult) :
    runSteps opts env (a :: rest) idx steps =
      runSteps opts env rest (idx + 1) (steps ++ [stepChoice opts env idx steps a]) := by
  simp only [runSteps, stepChoice]
  split_ifs with h <;> rfl

theorem runSteps_length (opts : RunOptions) (env : Nat → ExecOutcome) :
    ∀ (acts : List PlaywrightAction) (idx : Nat) (steps : List StepResult),
      (runSteps opts env acts idx steps).length = steps.length + acts.length := by
  intro acts
  induction acts with
  | nil => intro idx steps; simp [runSteps]
  | cons a rest ih =>
      intro idx steps
      rw [runSteps_cons, ih]
      simp
      omega

theorem runSteps_take (opts : RunOptions) (env : Nat → ExecOutcome) :
    ∀ (acts : List PlaywrightAction) (idx : Nat) (steps : List StepResult),
      (runSteps opts env acts idx steps).take steps.length = steps := by
  intro acts
  induction acts with
  | nil => intro idx steps; simp [runSteps]
  | cons a rest ih =>
      intro idx steps
      rw [runSteps_cons]
      have h1 := ih (idx + 1) (steps ++ [stepChoice opts env idx steps a])
      simp only [List.length_append, List.length_singleton] at h1
      have h2 : (runSteps opts env rest (idx + 1)
            (steps ++ [stepChoice opts env idx steps a])).take steps.length =
          ((runSteps opts env rest (idx + 1)
            (steps ++ [stepChoice opts env idx steps a])).take (steps.length + 1)).take
            steps.length := by
        rw [List.take_take]
        congr 1
        omega
      rw [h2, h1, List.take_left]

theorem runSteps_getElem (opts : RunOptions) (env : Nat → ExecOutcome) :
    ∀ (acts : List PlaywrightAction) (idx : Nat) (steps : List StepResult)
      (k : Nat) (a : PlaywrightAction), acts[k]? = some a →
      (runSteps opts env acts idx steps)[steps.length + k]? =
        some (stepChoice opts env (idx + k)
          ((runSteps opts env acts idx steps).take (steps.length + k)) a) := by
  intro acts
  induction acts with
  | nil => intro idx steps k a ha; simp at ha
  | cons a rest ih =>
      intro idx steps k b hb
      rw [runSteps_cons]
      have htake := runSteps_take opts env rest (idx + 1)
        (steps ++ [stepChoice opts env idx steps a])
      simp only [List.length_append, List.length_singleton] at htake
      cases k with
      | zero =>
          obtain rfl : a = b := by simpa using hb
          have hget : (runSteps opts env rest (idx + 1)
                (steps ++ [stepChoice opts env idx steps a]))[steps.length]? =
              some (stepChoice opts env idx steps a) := by
            have h3 := List.getElem?_take_of_lt (l := runSteps opts env rest (idx + 1)
              (steps ++ [stepChoice opts env idx steps a]))
              (n := steps.length + 1) (m := steps.length) (by omega)
            rw [htake] at h3
            rw [← h3, List.getElem?_concat_length]
          have hpre : (runSteps opts env rest (idx + 1)
                (steps ++ [stepChoice opts env idx steps a])).take steps.length = steps := by
            have h2 : (runSteps opts env rest (idx + 1)
                  (steps ++ [stepChoice opts env idx steps a])).take steps.length =
                ((runSteps opts env rest (idx + 1)
                  (steps ++ [stepChoice opts env idx steps a])).take (steps.length + 1)).take
                  steps.length := by
              rw [List.take_take]
              congr 1
              omega
            rw [h2, htake, List.take_left]
          simp only [Nat.add_zero]
          rw [hpre]
          exact hget
      | succ k =>
          have hbk : rest[k]? = some b := by simpa using hb
          have h4 := ih (idx + 1) (steps ++ [stepChoice opts env idx steps a]) k b hbk
          simp only [List.length_append, List.length_singleton] at h4
          have h5 : steps.length + 1 + k = steps.length + (k + 1) := by omega
          have h6 : idx + 1 + k = idx + (k + 1) := by omega
          rw [h5, h6] at h4
          exact h4

/-!  Top-level shape of `run`. -/

theorem run_length (url : String) (actions : List PlaywrightAction) (opts : RunOptions)
    (env : Nat → ExecOutcome) : (run url actions opts env).length = actions.length + 1 := by
  unfold run
  rw [runSteps_length]
  simp [Nat.add_comm]

theorem run_getElem_zero (url : String) (actions : List PlaywrightAction) (opts : RunOptions)
    (env : Nat → ExecOutcome) :
    (run url actions opts env)[0]? =
      some (executeStep (navMeta url) opts.captureScreenshots true (env 1)) := by
  unfold run
  have htake := runSteps_take opts env actions 2
    [executeStep (navMeta url) opts.captureScreenshots true (env 1)]
  simp only [List.length_singleton] at htake
  have h3 := List.getElem?_take_of_lt (l := runSteps opts env actions 2
      [executeStep (navMeta url) opts.captureScreenshots true (env 1)])
    (n := 1) (m := 0) (by omega)
  rw [htake] at h3
  rw [← h3]
  rfl

theorem run_getElem_succ (url : String) (actions : List PlaywrightAction) (opts : RunOptions)
    (env : Nat → ExecOutcome) (k : Nat) (a : PlaywrightAction) (ha : actions[k]? = some a) :
    (run url actions opts env)[k + 1]? =
      some (stepChoice opts env (k + 2) ((run url actions opts env).take (k + 1)) a) := by
  unfold run
  have h4 := runSteps_getElem opts env actions 2
    [executeStep (navMeta url) opts.captureScreenshots true (env 1)] k a ha
  simp only [List.length_singleton] at h4
  have h5 : 1 + k = k + 1 := by omega
  have h6 : 2 + k = k + 2 := by omega
  rw [h5, h6] at h4
  exact h4

theorem mem_of_getElem?_eq_some {α : Type} {l : List α} {n : Nat} {a : α}
    (h : l[n]? = some a) : a ∈ l :=
  List.getElem?_mem h

theorem stepChoice_index (opts : RunOptions) (env : Nat → ExecOutcome) (idx : Nat)
    (steps : List StepResult) (a : PlaywrightAction) :
    (stepChoice opts env idx steps a).index = idx := by
  unfold stepChoice
  by_cases h : steps.any isFailed = true ∧ a.type ≠ "screenshot"
  · rw [if_pos h]; rfl
  · rw [if_neg h]
    unfold executedResult
    exact (executeStep_meta _ _ _ _).1

theorem stepChoice_value (opts : RunOptions) (env : Nat → ExecOutcome) (idx : Nat)
    (steps : List StepResult) (a : PlaywrightAction) :
    (stepChoice opts env idx steps a).value =
      (if a.type = "fill" then maskValue a.value a.selector else a.value) := by
  unfold stepChoice
  by_cases h : steps.any isFailed = true ∧ a.type ≠ "screenshot"
  · rw [if_pos h]; rfl
  · rw [if_neg h]
    unfold executedResult
    exact (executeStep_meta _ _ _ _).2.2.2

/-!  The mask never contains a pattern holding a non-bullet character. -/

theorem listIsPrefixOf_replicate {c : Char} :
    ∀ (pat : List Char) (m : Nat),
      listIsPrefixOf pat (List.replicate m c) = true → ∀ x ∈ pat, x = c := by
  intro pat
  induction pat with
  | nil => intro m h x hx; simp at hx
  | cons p ps ih =>
      intro m h x hx
      cases m with
      | zero => simp [listIsPrefixOf, List.replicate] at h
      | succ m =>
          rw [List.replicate_succ] at h
          simp only [listIsPrefixOf, Bool.and_eq_true, beq_iff_eq] at h
          rcases List.mem_cons.mp hx with rfl | hx2
          · exact h.1
          · exact ih m h.2 x hx2

theorem listContainsSub_replicate {c : Char} :
    ∀ (m : Nat) (pat : List Char),
      listContainsSub pat (List.replicate m c) = true → ∀ x ∈ pat, x = c := by
  intro m
  induction m with
  | zero =>
      intro pat h x hx
      have hpat : pat = [] := by
        simpa [listContainsSub, List.replicate, List.isEmpty_iff] using h
      subst hpat
      simp at hx
  | succ m ih =>
      intro pat h x hx
      rw [List.replicate_succ] at h
      unfold listContainsSub at h
      rcases Bool.or_eq_true_iff.mp h with h1 | h2
      · refine listIsPrefixOf_replicate pat (m + 1) ?_ x hx
        rw [List.replicate_succ]
        exact h1
      · exact ih pat h2 x hx

theorem strContains_mask_false (v : String) (m : Nat)
    (hx : ∃ x ∈ v.data, x ≠ bullet) :
    strContains (String.mk (List.replicate m bullet)) v = false := by
  obtain ⟨x, hxm, hxne⟩ := hx
  show listContainsSub v.data (List.replicate m bullet) = false
  cases hb : listContainsSub v.data (List.replicate m bullet) with
  | false => rfl
  | true => exact absurd (listContainsSub_replicate m v.data hb x hxm) hxne

/-!  The `screencastActive` flag is false in any suffix of a trace whose
last start/stop event is a stop. -/

theorem activeAfter_append (l1 l2 : List ScreencastEvent) :
    activeAfter (l1 ++ l2) = l2.foldl screencastFlagStep (activeAfter l1) := by
  simp [activeAfter, List.foldl_append]

theorem activeAfter_false_of_stop (t : List ScreencastEvent) (q p : Nat)
    (hs : t[q]? = some ScreencastEvent.stop) (hqp : q < p)
    (hns : ∀ r, q < r → r < p → t[r]? ≠ some ScreencastEvent.start) :
    activeAfter (t.take p) = false := by
  revert hqp hns
  induction p with
  | zero => intro hqp _; omega
  | succ p ih =>
      intro hqp hns
      by_cases hq : q = p
      · subst hq
        simp [List.take_succ, hs, activeAfter_append, screencastFlagStep]
      · have hq2 : q < p := by omega
        have ihp := ih hq2 (fun r h1 h2 => hns r h1 (by omega))
        cases he : t[p]? with
        | none => simp [List.take_succ, he, activeAfter_append, ihp]
        | some ev =>
            cases ev with
            | start =>
                exact absurd he (hns p hq2 (by omega))
            | frame =>
                simp [List.take_succ, he, activeAfter_append, ihp, screencastFlagStep]
            | stop =>
                simp [List.take_succ, he, activeAfter_append, ihp, screencastFlagStep]

/-!  Claim theorems. -/

/-- C1: in `run(url, actions, options)`, once some step at a position
before `k + 1` has status `failed`, the action at 0-based position `k`
yields the literal skipped StepResult (status `skipped`, duration 0,
independent of the execution environment, hence not executed) when its
type is not `"screenshot"`, while a `"screenshot"` action is still
executed normally. -/
theorem C1_run_skips_after_failure (url : String) (actions : List PlaywrightAction)
    (opts : RunOptions) (env : Nat → ExecOutcome) (k : Nat) (a : PlaywrightAction)
    (ha : actions[k]? = some a)
    (hfail : ∃ j, j < k + 1 ∧
      ((run url actions opts env)[j]?).map StepResult.status = some Status.failed) :
    (a.type ≠ "screenshot" →
      (run url actions opts env)[k + 1]? = some (skippedResult (k + 2) a) ∧
      (skippedResult (k + 2) a).status = Status.skipped ∧
      (skippedResult (k + 2) a).duration = 0) ∧
    (a.type = "screenshot" →
      (run url actions opts env)[k + 1]? = some (executedResult opts env (k + 2) a)) := by
  obtain ⟨j, hj, hjf⟩ := hfail
  have hany : ((run url actions opts env).take (k + 1)).any isFailed = true := by
    cases hmap : (run url actions opts env)[j]? with
    | none => rw [hmap] at hjf; simp at hjf
    | some s =>
        rw [hmap] at hjf
        simp only [Option.map_some'] at hjf
        have hsf : s.status = Status.failed := by injection hjf
        rw [List.any_eq_true]
        refine ⟨s, ?_, (isFailed_eq_true_iff s).mpr hsf⟩
        refine mem_of_getElem?_eq_some (n := j) ?_
        rw [List.getElem?_take_of_lt hj]
        exact hmap
  have h4 := run_getElem_succ url actions opts env k a ha
  constructor
  · intro hns
    have hch : stepChoice opts env (k + 2) ((run url actions opts env).take (k + 1)) a =
        skippedResult (k + 2) a := by
      unfold stepChoice
      rw [if_pos ⟨hany, hns⟩]
    refine ⟨?_, rfl, rfl⟩
    rw [h4, hch]
  · intro hscr
    have hch : stepChoice opts env (k + 2) ((run url actions opts env).take (k + 1)) a =
        executedResult opts env (k + 2) a := by
      unfold stepChoice
      rw [if_neg]
      intro hcon
      exact hcon.2 hscr
    rw [h4, hch]

/-- C1 witness: navigate passes, the click at step 2 fails, so the fill
at position 2 of the result is skipped with duration 0. -/
theorem C1_witness :
    (run "https://example.com" [cexClick, cexFill] {}
        (envFailAt 2 "selector not found"))[2]? = some (skippedResult 3 cexFill) ∧
    (skippedResult 3 cexFill).status = Status.skipped ∧
    (skippedResult 3 cexFill).duration = 0 :=
  (C1_run_skips_after_failure "https://example.com" [cexClick, cexFill] {}
    (envFailAt 2 "selector not found") 1 cexFill (by decide)
    ⟨1, by decide, by decide⟩).1 (by decide)

/-- C2 amended: for a fill action whose selector matches the password
heuristic and whose value `v` is non-empty, the `value` field of the
StepResult at position `k + 1` is the bullet repeated `min(v.length, 12)`
times; that masked string does not contain the original value provided
the original value has at least one non-bullet character (a value made
only of bullets, e.g. "•", is its own mask, so the unconditional "never
contains" of the claim fails — see the counterexample). -/
theorem C2_run_masks_password (url : String) (actions : List PlaywrightAction)
    (opts : RunOptions) (env : Nat → ExecOutcome) (k : Nat) (a : PlaywrightAction)
    (v : String) (ha : actions[k]? = some a) (ht : a.type = "fill")
    (hsel : isPasswordSelector a.selector = true)
    (hv : a.value = some v) (hne : v ≠ "") :
    ∃ s, (run url actions opts env)[k + 1]? = some s ∧
      s.value = some (String.mk (List.replicate (min v.length 12) bullet)) ∧
      ((∃ x ∈ v.data, x ≠ bullet) →
        strContains (String.mk (List.replicate (min v.length 12) bullet)) v = false) := by
  refine ⟨stepChoice opts env (k + 2) ((run url actions opts env).take (k + 1)) a,
    run_getElem_succ url actions opts env k a ha, ?_,
    fun hx => strContains_mask_false v _ hx⟩
  rw [stepChoice_value, if_pos ht, hv]
  simp only [maskValue]
  rw [if_neg hne, if_pos hsel]

/-- C2 witness: the password fill of "secret" is reported with value
"••••••" (6 bullets), and the mask does not contain "secret". -/
theorem C2_witness :
    ∃ s, (run "https://example.com" [pwFill] {} envOk)[1]? = some s ∧
      s.value = some (String.mk (List.replicate (min "secret".length 12) bullet)) ∧
      ((∃ x ∈ "secret".data, x ≠ bullet) →
        strContains (String.mk (List.replicate (min "secret".length 12) bullet))
          "secret" = false) :=
  C2_run_masks_password "https://example.com" [pwFill] {} envOk 0 pwFill "secret"
    (by decide) (by decide) (by decide) (by decide) (by decide)

/-- C2 counterexample: for the password fill whose original value is the
single bullet "•", the returned `value` field is "•" itself, which
contains (indeed equals) the original value — refuting the claim's
unconditional "never contains the original value". -/
theorem C2_cex :
    ((run "https://example.com" [pwBulletFill] {} envOk)[1]?).map StepResult.value =
      some (some "•") ∧
    strContains "•" "•" = true := by decide

/-- C3 amended: when a step's action throws with message `e`, the step is
the failed result: status `failed`, the original message as `error`, and
the failure-time screenshot capture is attempted regardless of the
capture flag, its payload attached when it succeeds and its own error
swallowed (`shotFailure = none` leaves no screenshot, the error field
still carrying the original message). -/
theorem C3_executeStep_failure_screenshot (m : StepMeta) (flag : Bool)
    (o : ExecOutcome) (e : String) (he : o.actionError = some e) :
    executeStep m flag true o = failedResult m e true o ∧
    (failedResult m e true o).status = Status.failed ∧
    (failedResult m e true o).error = some e ∧
    (failedResult m e true o).screenshot = o.shotFailure ∧
    (failedResult m e true o).duration = o.durationFailed := by
  refine ⟨?_, rfl, rfl, rfl, rfl⟩
  unfold executeStep
  rw [he]

/-- C3 witness: a failing click with the capture flag off still yields
the failed result carrying the failure-time screenshot. -/
theorem C3_witness :
    executeStep cexMeta false true (failOutcome "boom") =
      failedResult cexMeta "boom" true (failOutcome "boom") ∧
    (failedResult cexMeta "boom" true (failOutcome "boom")).status = Status.failed ∧
    (failedResult cexMeta "boom" true (failOutcome "boom")).error = some "boom" ∧
    (failedResult cexMeta "boom" true (failOutcome "boom")).screenshot =
      (failOutcome "boom").shotFailure ∧
    (failedResult cexMeta "boom" true (failOutcome "boom")).duration =
      (failOutcome "boom").durationFailed :=
  C3_executeStep_failure_screenshot cexMeta false (failOutcome "boom") "boom" rfl

/-- C3 counterexample: with `captureScreenshots = false` and
`screenshotOnFailure = false`, a failing navigation still gets a
screenshot attached to its failed StepResult — refuting "attached only
when the screenshotOnFailure option is set". -/
theorem C3_cex :
    noShotOpts.screenshotOnFailure = false ∧
    noShotOpts.captureScreenshots = false ∧
    ((run "https://x.example/" [] noShotOpts (envFailAt 1 "net::ERR_FAILED"))[0]?).map
      StepResult.status = some Status.failed ∧
    ((run "https://x.example/" [] noShotOpts (envFailAt 1 "net::ERR_FAILED"))[0]?).map
      StepResult.screenshot = some (some "FSHOT") := by decide

/-- C5: when no step of a completed run has status `failed`, the summary
computed over the returned steps has `passed = total` and `failed = 0`. -/
theorem C5_summary_no_failures (url : String) (actions : List PlaywrightAction)
    (opts : RunOptions) (env : Nat → ExecOutcome)
    (h : ∀ s ∈ run url actions opts env, s.status ≠ Status.failed) :
    (computeSummary (run url actions opts env)).passed =
      (computeSummary (run url actions opts env)).total ∧
    (computeSummary (run url actions opts env)).failed = 0 := by
  have hall : ∀ s ∈ run url actions opts env, isPassed s = true := by
    intro s hs
    obtain ⟨n, hn⟩ := List.getElem?_of_mem hs
    have hstat : s.status = Status.passed ∨ s.status = Status.failed := by
      cases n with
      | zero =>
          rw [run_getElem_zero] at hn
          injection hn with h2
          rw [← h2]
          exact executeStep_status _ _ _ _
      | succ k =>
          have hlt := (List.getElem?_eq_some_iff.mp hn).1
          rw [run_length] at hlt
          have hk : k < actions.length := by omega
          obtain ⟨a, ha⟩ : ∃ a, actions[k]? = some a := ⟨_, List.getElem?_eq_getElem hk⟩
          have h4 := run_getElem_succ url actions opts env k a ha
          rw [h4] at hn
          injection hn with h5
          by_cases hc : ((run url actions opts env).take (k + 1)).any isFailed = true ∧
              a.type ≠ "screenshot"
          · obtain ⟨t, ht, htf⟩ := List.any_eq_true.mp hc.1
            exact absurd ((isFailed_eq_true_iff t).mp htf) (h t (List.mem_of_mem_take ht))
          · rw [← h5]
            unfold stepChoice
            rw [if_neg hc]
            unfold executedResult
            exact executeStep_status _ _ _ _
    rcases hstat with hp | hf
    · unfold isPassed; rw [hp]
    · exact absurd hf (h s hs)
  have hnof : ∀ s ∈ run url actions opts env, ¬(isFailed s = true) :=
    fun s hs hf => h s hs ((isFailed_eq_true_iff s).mp hf)
  constructor
  · show (List.filter isPassed (run url actions opts env)).length =
      (run url actions opts env).length
    rw [List.filter_eq_self.mpr hall]
  · show (List.filter isFailed (run url actions opts env)).length = 0
    rw [List.filter_eq_nil_iff.mpr hnof]
    rfl

/-- C5 witness: a run with a single wait action and no failures yields
`passed = total` and `failed = 0`. -/
theorem C5_witness :
    (computeSummary (run "https://example.com" [cexWait] {} envOk)).passed =
      (computeSummary (run "https://example.com" [cexWait] {} envOk)).total ∧
    (computeSummary (run "https://example.com" [cexWait] {} envOk)).failed = 0 :=
  C5_summary_no_failures "https://example.com" [cexWait] {} envOk (by decide)

/-- C6: `run` returns exactly `actions.length + 1` StepResults, the first
is the implicit navigation step with index 1, and the StepResult at each
0-based position `k` carries `index = k + 1`. -/
theorem C6_run_indexing (url : String) (actions : List PlaywrightAction)
    (opts : RunOptions) (env : Nat → ExecOutcome) :
    (run url actions opts env).length = actions.length + 1 ∧
    ((run url actions opts env)[0]?).map StepResult.type = some "navigate" ∧
    ((run url actions opts env)[0]?).map StepResult.index = some 1 ∧
    (∀ k s, (run url actions opts env)[k]? = some s → s.index = k + 1) := by
  refine ⟨run_length url actions opts env, ?_, ?_, ?_⟩
  · rw [run_getElem_zero]
    simp only [Option.map_some']
    rw [(executeStep_meta _ _ _ _).2.1]
    rfl
  · rw [run_getElem_zero]
    simp only [Option.map_some']
    rw [(executeStep_meta _ _ _ _).1]
    rfl
  · intro k s hs
    cases k with
    | zero =>
        rw [run_getElem_zero] at hs
        injection hs with h2
        rw [← h2, (executeStep_meta _ _ _ _).1]
        rfl
    | succ k =>
        have hlt := (List.getElem?_eq_some_iff.mp hs).1
        rw [run_length] at hlt
        have hk : k < actions.length := by omega
        obtain ⟨a, ha⟩ : ∃ a, actions[k]? = some a := ⟨_, List.getElem?_eq_getElem hk⟩
        have h4 := run_getElem_succ url actions opts env k a ha
        rw [h4] at hs
        injection hs with h5
        rw [← h5, stepChoice_index]

/-- C6 witness: a one-action run has two steps and its first step has
index 1. -/
theorem C6_witness :
    (run "https://example.com" [cexWait] {} envOk).length = 1 + 1 ∧
    (executeStep (navMeta "https://example.com") true true okOutcome).index = 0 + 1 :=
  ⟨(C6_run_indexing "https://example.com" [cexWait] {} envOk).1,
   (C6_run_indexing "https://example.com" [cexWait] {} envOk).2.2.2 0
     (executeStep (navMeta "https://example.com") true true okOutcome) (by decide)⟩

/-- C7: `replayStep` on a live page returns the result of re-executing
the rebuilt action with the current outcome, preserving the input's
index, type, selector and value (status, duration, screenshot and url
all coming from that fresh `executeStep`); with no active page it fails
with the "No active page" error instead of returning a StepResult. -/
theorem C7_replayStep_contract (step : StepResult) (o : ExecOutcome) :
    replayStep true step o = Except.ok (executeStep (replayMeta step) true true o) ∧
    (executeStep (replayMeta step) true true o).index = step.index ∧
    (executeStep (replayMeta step) true true o).type = step.type ∧
    (executeStep (replayMeta step) true true o).selector = step.selector ∧
    (executeStep (replayMeta step) true true o).value = step.value ∧
    replayStep false step o = Except.error "No active page" :=
  ⟨rfl, (executeStep_meta _ _ _ _).1, (executeStep_meta _ _ _ _).2.1,
   (executeStep_meta _ _ _ _).2.2.1, (executeStep_meta _ _ _ _).2.2.2, rfl⟩

/-- C4: in the timeline UI (the `selectStep` handler of
src/unnamed/part_002), selecting a step is a toggle on the expanded set:
selecting a step that is already expanded collapses it (the expanded set
becomes empty, so in particular that step and every other step is
collapsed), and selecting a step that is not currently expanded expands
only that step, collapsing all others (accordion, not multi-expand);
the failed-steps auto-expand instead installs the multi-expand set of
exactly the failed positions. -/
theorem C4_selectStep_toggle_accordion (i j n : Nat) (ex : Nat → Bool)
    (steps : List StepResult) :
    (ex i = true → ∀ k, selectStepToggle i ex k = false) ∧
    (ex i = false →
      selectStepToggle i ex i = true ∧ (j ≠ i → selectStepToggle i ex j = false)) ∧
    (autoExpandFailedIdx steps n = true ↔
      ∃ s, steps[n]? = some s ∧ s.status = Status.failed) := by
  refine ⟨?_, ?_, ?_⟩
  · intro h k
    simp [selectStepToggle, h]
  · intro h
    constructor
    · simp [selectStepToggle, h]
    · intro hj
      have hb : (j == i) = false := beq_eq_false_iff_ne.mpr hj
      simp [selectStepToggle, h, hb]
  · cases h : steps[n]? with
    | none => simp [autoExpandFailedIdx, h]
    | some s => simp [autoExpandFailedIdx, h, isFailed_eq_true_iff]

/-- C4 witness: reselecting expanded step 2 collapses it; selecting
step 2 from the collapsed state expands exactly step 2. -/
theorem C4_witness :
    selectStepToggle 2 (fun n => n == 2) 2 = false ∧
    selectStepToggle 2 (fun _ => false) 2 = true ∧
    selectStepToggle 2 (fun _ => false) 3 = false :=
  ⟨(C4_selectStep_toggle_accordion 2 3 0 (fun n => n == 2) []).1 (by decide) 2,
   ((C4_selectStep_toggle_accordion 2 3 0 (fun _ => false) []).2.1 (by decide)).1,
   ((C4_selectStep_toggle_accordion 2 3 0 (fun _ => false) []).2.1 (by decide)).2
     (by decide)⟩

/-- C8: a frame event arriving at position `p` of the lifecycle trace
after a `stopScreencast` at position `q` (with no intervening
`startScreencast`) is not delivered to `onFrame`; moreover the handler
discards a frame whenever the active flag is down at arrival (no delivery
and no ack), and re-checks the flag before the acknowledgment, so no ack
is sent when the flag went down after delivery. -/
theorem C8_no_frame_after_stop (t : List ScreencastEvent) (p q : Nat)
    (_hf : t[p]? = some ScreencastEvent.frame)
    (hq : q < p) (hs : t[q]? = some ScreencastEvent.stop)
    (hn : ∀ r, q < r → r < p → t[r]? ≠ some ScreencastEvent.start) :
    frameDelivered t p = false ∧
    (∀ sess act, frameHandler false sess act =
      { delivered := false, ackSent := false }) ∧
    (∀ actArr sess, (frameHandler actArr sess false).ackSent = false) := by
  refine ⟨?_, fun sess act => rfl, ?_⟩
  · unfold frameDelivered
    rw [activeAfter_false_of_stop t q p hs hq hn]
    rfl
  · intro actArr sess
    cases actArr with
    | false => rfl
    | true => simp [frameHandler]

/-- C8 witness: in the trace start, frame, stop, frame the second frame
(position 3) is not delivered. -/
theorem C8_witness :
    frameDelivered [ScreencastEvent.start, ScreencastEvent.frame,
      ScreencastEvent.stop, ScreencastEvent.frame] 3 = false :=
  (C8_no_frame_after_stop
    [ScreencastEvent.start, ScreencastEvent.frame,
     ScreencastEvent.stop, ScreencastEvent.frame] 3 2
    (by decide) (by decide) (by decide)
    (fun r h1 h2 => absurd h1 (by omega))).1

/-- C9: after the close-browser handler runs (from any state), the
session is cleared, and each of take-screenshot, save-video and
start-screencast returns a failed tool result whose text is its
no-active-session message ("No active session" resp. "No active browser
session") instead of throwing. -/
theorem C9_close_then_no_session (st : ServerState) (saveAs : Option String)
    (saveOk : Bool) (dp shot svPath svErr : String) (svOk : Bool) :
    ((closeBrowser st saveAs saveOk dp).2).hasRunner = false ∧
    (takeScreenshotTool (closeBrowser st saveAs saveOk dp).2 shot).isError = true ∧
    (takeScreenshotTool (closeBrowser st saveAs saveOk dp).2 shot).text =
      "No active session" ∧
    (saveVideoTool (closeBrowser st saveAs saveOk dp).2 svOk svPath svErr).isError = true ∧
    (saveVideoTool (closeBrowser st saveAs saveOk dp).2 svOk svPath svErr).text =
      "No active browser session" ∧
    ((startScreencastTool (closeBrowser st saveAs saveOk dp).2).1).isError = true ∧
    ((startScreencastTool (closeBrowser st saveAs saveOk dp).2).1).text =
      "No active browser session" := by
  have hr : ((closeBrowser st saveAs saveOk dp).2).hasRunner = false := by
    unfold closeBrowser
    by_cases h : st.hasRunner = true
    · rw [if_pos h]
    · rw [if_neg h]
      simp only [Bool.not_eq_true] at h
      exact h
  refine ⟨hr, ?_, ?_, ?_, ?_, ?_, ?_⟩
  · unfold takeScreenshotTool; rw [if_pos hr]
  · unfold takeScreenshotTool; rw [if_pos hr]
  · unfold saveVideoTool; rw [if_pos hr]
  · unfold saveVideoTool; rw [if_pos hr]
  · unfold startScreencastTool; rw [if_pos hr]
  · unfold startScreencastTool; rw [if_pos hr]

/-- C10: the get-screencast-frame handler is consuming: its `hasFrame`
is exactly whether a frame is stored, it returns the stored frame mapped
through the output shape, it clears the stored frame, and a second call
with no new frame in between (as well as any call before a first frame
arrives) returns `hasFrame = false` and leaves the state unchanged. -/
theorem C10_getFrame_consuming (st : ServerState) (n1 n2 : Nat) :
    (getScreencastFrameTool st n1).1.hasFrame = st.latestFrame.isSome ∧
    (getScreencastFrameTool st n1).1.frame =
      st.latestFrame.map (fun f => frameOut f n1) ∧
    ((getScreencastFrameTool st n1).2).latestFrame = none ∧
    (getScreencastFrameTool (getScreencastFrameTool st n1).2 n2).1.hasFrame = false ∧
    (getScreencastFrameTool (getScreencastFrameTool st n1).2 n2).2 =
      (getScreencastFrameTool st n1).2 := by
  cases hf : st.latestFrame with
  | none => simp [getScreencastFrameTool, hf]
  | some f => simp [getScreencastFrameTool, hf]

end PW

